import Mathlib

/-!
Verification of the UpSet-plot helper (`interface.py`).

The program collects named sets of text items from a dynamic form
(`get_user_input`, `process_sets`), stores them in the dictionary
`self.set_data`, and on demand derives a 0/1 incidence table
(rows = sorted union of all items, columns = set names) which is either
written to a CSV file (`save_to_csv`) or handed to the UpSet plotting
routine (`show_upset_plot`, `save_upset_plot`).

Python strings are modelled as Lean `String`, but the Python string
operations used by the program (`strip`, `split("\n")`, comparison for
`sorted`, `int(...)`) are re-implemented structurally over `String.data`
so that all definitions reduce inside the kernel.
-/

namespace UpsetHelper

/-- Python `str.strip()`: remove leading and trailing whitespace. -/
def pyStrip (s : String) : String :=
  ((s.data.dropWhile Char.isWhitespace).reverse.dropWhile Char.isWhitespace).reverse.asString

/-- Worker for `pySplitNl`: split a character list at every newline,
`cur` holding the (reversed) characters of the current field. -/
def splitNlAux (cur : List Char) : List Char → List (List Char)
  | [] => [cur.reverse]
  | c :: cs => if c = '\n' then cur.reverse :: splitNlAux [] cs else splitNlAux (c :: cur) cs

/-- Python `str.split("\n")`: split at every newline, keeping empty fields
(so the empty string yields `[""]`). -/
def pySplitNl (s : String) : List String :=
  (splitNlAux [] s.data).map List.asString

/-- Lexicographic comparison of character lists by code point, the order
Python `sorted` uses on strings. -/
def charListLe : List Char → List Char → Bool
  | [], _ => true
  | _ :: _, [] => false
  | a :: as, b :: bs =>
    if a.toNat < b.toNat then true
    else if b.toNat < a.toNat then false
    else charListLe as bs

/-- Python string comparison `a <= b` (lexicographic by code point). -/
def strLe (a b : String) : Bool :=
  charListLe a.data b.data

/-- `strLe` as a relation, for use with `List.insertionSort`. -/
def strLeRel (a b : String) : Prop :=
  strLe a b = true

instance : DecidableRel strLeRel :=
  fun a b => Bool.decEq (strLe a b) true

/-- Python `int(s)` digit run: at least one decimal digit, value in base 10. -/
def parseDigitsAux : List Char → Nat → Option Nat
  | [], acc => some acc
  | c :: cs, acc =>
    if c.isDigit then parseDigitsAux cs (acc * 10 + (c.toNat - 48)) else none

/-- Parse a non-empty all-digit character list as a natural number. -/
def parseDigits : List Char → Option Nat
  | [] => none
  | cs => parseDigitsAux cs 0

/-- Python `int(s)`: optional sign followed by at least one decimal digit,
after stripping surrounding whitespace; `none` models `ValueError`. -/
def pyInt (s : String) : Option Int :=
  match (pyStrip s).data with
  | '-' :: cs => (parseDigits cs).map (fun n => -(n : Int))
  | '+' :: cs => (parseDigits cs).map (fun n => (n : Int))
  | cs => (parseDigits cs).map (fun n => (n : Int))

/-- The dictionary `self.set_data`: set name to item set, in insertion
order, modelled as an association list. -/
abbrev SetData := List (String × List String)

/-- Python dict assignment `d[k] = v`: replace the value at an existing key
in place (keeping its position), otherwise append the new binding. -/
def dictInsert : SetData → String → List String → SetData
  | [], k, v => [(k, v)]
  | p :: rest, k, v => if p.1 = k then (k, v) :: rest else p :: dictInsert rest k v

/-- Python dict lookup `d[k]` (as an option). -/
def dictFind : SetData → String → Option (List String)
  | [], _ => none
  | p :: rest, k => if p.1 = k then some p.2 else dictFind rest k

/-- The key list of the dictionary, in insertion order. -/
def dictKeys (d : SetData) : List String :=
  d.map Prod.fst

/-- Lines 102-103 of `process_sets`: the item text box is stripped, split
at newlines, each line stripped, blank lines dropped, and the result
collapsed to a set (here: a duplicate-free list). -/
def parse_items (text : String) : List String :=
  ((((pySplitNl (pyStrip text)).map pyStrip).filter (fun s => s ≠ "")).dedup)

/-- One form field passes validation when its stripped name is non-blank
and its parsed item list is non-empty (lines 98 and 105). -/
def validField (f : String × String) : Prop :=
  pyStrip f.1 ≠ "" ∧ parse_items f.2 ≠ []

instance : DecidablePred validField :=
  fun _ => instDecidableAnd

/-- Loop of `process_sets` (lines 96-109): walk the form fields in order,
validating and inserting each into `set_data`; return the error message (if
any) together with the final `set_data`. An error aborts the walk at once,
leaving the bindings inserted so far. -/
def processSetsGo (acc : SetData) : List (String × String) → Option String × SetData
  | [] => (none, acc)
  | f :: rest =>
    if pyStrip f.1 = "" then (some "Set name cannot be empty.", acc)
    else if parse_items f.2 = [] then
      (some ("Set '" ++ pyStrip f.1 ++ "' cannot be empty."), acc)
    else processSetsGo (dictInsert acc (pyStrip f.1) (parse_items f.2)) rest

/-- `process_sets` (lines 92-109): `self.set_data.clear()` then the
validation-and-insert walk over the form fields. -/
def process_sets (fields : List (String × String)) : Option String × SetData :=
  processSetsGo [] fields

/-- Folding the successful inserts of a list of fields into a dictionary;
`process_sets` on all-valid fields computes exactly this. -/
def insertAll (acc : SetData) (fields : List (String × String)) : SetData :=
  fields.foldl (fun a f => dictInsert a (pyStrip f.1) (parse_items f.2)) acc

/-- The GUI state the claims depend on: the stored dictionary and whether
the two save buttons are enabled. -/
structure AppState where
  set_data : SetData
  save_buttons_enabled : Bool
deriving DecidableEq, Repr

/-- `process_sets` at the level of the GUI state (lines 92-113): the
dictionary is cleared and rebuilt; on success the save buttons are enabled,
on a validation error the buttons keep their previous state and the error
message is shown. -/
def process_sets_app (st : AppState) (fields : List (String × String)) :
    AppState × Option String :=
  match process_sets fields with
  | (none, d) => (⟨d, true⟩, none)
  | (some e, d) => (⟨d, st.save_buttons_enabled⟩, some e)

/-- `get_user_input` (lines 57-65): parse the set-count text as a Python
int; reject a parse failure or a non-positive value with an error (creating
no input fields); otherwise create that many field pairs. -/
def get_user_input (s : String) : Option Nat :=
  match pyInt s with
  | none => none
  | some n => if n ≤ 0 then none else some n.toNat

/-- The pandas DataFrame the program builds: row labels (`index`), column
labels, and the 0/1 cells, row-major. -/
structure Table where
  rows : List String
  cols : List String
  data : List (List Nat)
deriving DecidableEq, Repr

/-- Cell access with out-of-range defaults, for stating cell properties. -/
def Table.cell (t : Table) (i j : Nat) : Nat :=
  (t.data.getD i []).getD j 0

/-- Row label access with an out-of-range default. -/
def Table.row (t : Table) (i : Nat) : String :=
  t.rows.getD i ""

/-- Lines 124-126 of `save_to_csv`: `sorted(set.union(*self.set_data.values()))`
then the dict comprehension building the 0/1 rows, then the DataFrame with
the items as index and the set names as columns. -/
def save_to_csv_df (d : SetData) : Table :=
  let all_items := List.insertionSort strLeRel ((d.map Prod.snd).flatten.dedup)
  { rows := all_items
    cols := d.map Prod.fst
    data := all_items.map (fun item => d.map (fun p => if item ∈ p.2 then 1 else 0)) }

/-- Lines 139-141 of `show_upset_plot`: the same derivation, transcribed
from its own copy of the three lines. -/
def show_upset_plot_df (d : SetData) : Table :=
  let all_items := List.insertionSort strLeRel ((d.map Prod.snd).flatten.dedup)
  { rows := all_items
    cols := d.map Prod.fst
    data := all_items.map (fun item => d.map (fun p => if item ∈ p.2 then 1 else 0)) }

/-- Lines 160-162 of `save_upset_plot`: the same derivation again,
transcribed from its own copy of the three lines. -/
def save_upset_plot_df (d : SetData) : Table :=
  let all_items := List.insertionSort strLeRel ((d.map Prod.snd).flatten.dedup)
  { rows := all_items
    cols := d.map Prod.fst
    data := all_items.map (fun item => d.map (fun p => if item ∈ p.2 then 1 else 0)) }

/-- `save_to_csv` (lines 118-131): abort with an error and no file when
`set_data` is empty, otherwise derive the table and write it. The second
component is the table written to the file, `none` when nothing is written. -/
def save_to_csv (st : AppState) : AppState × Option Table :=
  if st.set_data = [] then (st, none)
  else (st, some (save_to_csv_df st.set_data))

/-- `show_upset_plot` (lines 133-150): abort with an error when `set_data`
is empty, otherwise derive the table and hand it to the plotting routine.
The result is the table displayed, `none` when nothing is shown. -/
def show_upset_plot (st : AppState) : Option Table :=
  if st.set_data = [] then none
  else some (show_upset_plot_df st.set_data)

/-- `save_upset_plot` (lines 152-171): abort with an error and no file when
`set_data` is empty, otherwise derive the table, plot it and rasterize the
plot. The second component is the table rendered into the saved image,
`none` when nothing is written. -/
def save_upset_plot (st : AppState) : AppState × Option Table :=
  if st.set_data = [] then (st, none)
  else (st, some (save_upset_plot_df st.set_data))

/-- The union of all item sets, as a finite set. -/
def unionFinset (d : SetData) : Finset String :=
  d.foldr (fun p acc => p.2.toFinset ∪ acc) ∅

/-- `df.to_csv(file_path, index=True)` as rows of cells: a header row (an
empty cell for the index name, then the column names) followed by one row
per index entry (the item, then its cells rendered in decimal). -/
def tableToCsv (t : Table) : List (List String) :=
  ("" :: t.cols) :: (t.rows.zip t.data).map (fun r => r.1 :: r.2.map toString)

/-- Modelled from the spec: "Exporting then re-reading the tabular file
round-trips the boolean values exactly". The repository contains no reader,
so the evident inverse is used: drop the header row and the index column
and parse every remaining cell as a decimal number. -/
def csvReadCells (file : List (List String)) : List (List (Option Nat)) :=
  (file.drop 1).map (fun line => (line.drop 1).map (fun c => parseDigits c.data))

/-! Order properties of the string comparison used by `sorted`. -/

theorem charListLe_total : ∀ as bs : List Char,
    charListLe as bs = true ∨ charListLe bs as = true := by
  intro as
  induction as with
  | nil => intro bs; left; rfl
  | cons a as ih =>
    intro bs
    cases bs with
    | nil => right; rfl
    | cons b bs =>
      simp only [charListLe]
      rcases Nat.lt_trichotomy a.toNat b.toNat with h | h | h
      · left; simp [h]
      · have h1 : ¬ a.toNat < b.toNat := by omega
        have h2 : ¬ b.toNat < a.toNat := by omega
        simp only [if_neg h1, if_neg h2]
        exact ih bs
      · right; simp [h]

theorem charListLe_trans : ∀ as bs cs : List Char, charListLe as bs = true →
    charListLe bs cs = true → charListLe as cs = true := by
  intro as
  induction as with
  | nil => intro bs cs _ _; rfl
  | cons a as ih =>
    intro bs cs h₁ h₂
    cases bs with
    | nil => exact absurd h₁ (by simp [charListLe])
    | cons b bs =>
      cases cs with
      | nil => exact absurd h₂ (by simp [charListLe])
      | cons c cs =>
        simp only [charListLe] at h₁ h₂ ⊢
        rcases Nat.lt_trichotomy a.toNat b.toNat with hab | hab | hab
        · rcases Nat.lt_trichotomy b.toNat c.toNat with hbc | hbc | hbc
          · simp [Nat.lt_trans hab hbc]
          · simp [hbc ▸ hab]
          · simp [Nat.lt_asymm hbc, hbc] at h₂
        · rcases Nat.lt_trichotomy b.toNat c.toNat with hbc | hbc | hbc
          · simp [hab ▸ hbc]
          · have hac : ¬ a.toNat < c.toNat := by omega
            have hca : ¬ c.toNat < a.toNat := by omega
            simp only [if_neg hac, if_neg hca]
            simp only [if_neg (by omega : ¬ a.toNat < b.toNat),
              if_neg (by omega : ¬ b.toNat < a.toNat)] at h₁
            simp only [if_neg (by omega : ¬ b.toNat < c.toNat),
              if_neg (by omega : ¬ c.toNat < b.toNat)] at h₂
            exact ih bs cs h₁ h₂
          · simp [Nat.lt_asymm hbc, hbc] at h₂
        · simp [Nat.lt_asymm hab, hab] at h₁

instance : IsTotal String strLeRel :=
  ⟨fun a b => charListLe_total a.data b.data⟩

instance : IsTrans String strLeRel :=
  ⟨fun a b c => charListLe_trans a.data b.data c.data⟩

/-! Dictionary lemmas. -/

theorem dictFind_dictInsert (d : SetData) (k : String) (v : List String) (x : String) :
    dictFind (dictInsert d k v) x = if x = k then some v else dictFind d x := by
  induction d with
  | nil =>
    simp only [dictInsert, dictFind]
    by_cases h : x = k
    · simp [h]
    · simp [h, Ne.symm h]
  | cons p rest ih =>
    simp only [dictInsert]
    by_cases hp : p.1 = k
    · rw [if_pos hp]
      simp only [dictFind]
      by_cases hx : x = k
      · simp [hx]
      · simp [hx, Ne.symm hx, show ¬ p.1 = x from fun h => hx (h ▸ hp)]
    · rw [if_neg hp]
      simp only [dictFind]
      by_cases hx : p.1 = x
      · have hxk : ¬ x = k := fun h => hp (hx.trans h)
        simp [hx, hxk]
      · simp [hx, ih]

theorem dictKeys_dictInsert (d : SetData) (k : String) (v : List String) :
    dictKeys (dictInsert d k v) =
      if k ∈ dictKeys d then dictKeys d else dictKeys d ++ [k] := by
  induction d with
  | nil => simp [dictInsert, dictKeys]
  | cons p rest ih =>
    by_cases hp : p.1 = k
    · simp [dictInsert, if_pos hp, dictKeys, hp]
    · have hkp : ¬ k = p.1 := fun h => hp h.symm
      simp only [dictInsert, if_neg hp, dictKeys, List.map_cons] at ih ⊢
      rw [ih]
      by_cases hk : k ∈ rest.map Prod.fst
      · simp [hk, hkp]
      · simp [hk, hkp]

theorem mem_dictKeys_dictInsert (d : SetData) (k : String) (v : List String) (x : String) :
    x ∈ dictKeys (dictInsert d k v) ↔ x ∈ dictKeys d ∨ x = k := by
  rw [dictKeys_dictInsert]
  by_cases h : k ∈ dictKeys d
  · rw [if_pos h]
    constructor
    · exact Or.inl
    · rintro (hx | rfl)
      · exact hx
      · exact h
  · rw [if_neg h]
    simp

theorem nodup_dictKeys_dictInsert (d : SetData) (k : String) (v : List String)
    (h : (dictKeys d).Nodup) : (dictKeys (dictInsert d k v)).Nodup := by
  rw [dictKeys_dictInsert]
  by_cases hk : k ∈ dictKeys d
  · rwa [if_pos hk]
  · rw [if_neg hk, List.nodup_append]
    exact ⟨h, List.nodup_singleton k,
      fun a ha hb => hk ((List.mem_singleton.mp hb) ▸ ha)⟩

/-! Lemmas about the `process_sets` walk. -/

theorem insertAll_nil (acc : SetData) : insertAll acc [] = acc := rfl

theorem insertAll_cons (acc : SetData) (f : String × String) (fs : List (String × String)) :
    insertAll acc (f :: fs) = insertAll (dictInsert acc (pyStrip f.1) (parse_items f.2)) fs :=
  rfl

theorem processSetsGo_valid : ∀ (fields : List (String × String)) (acc : SetData),
    (∀ f ∈ fields, validField f) → processSetsGo acc fields = (none, insertAll acc fields) := by
  intro fields
  induction fields with
  | nil => intro acc _; rfl
  | cons f fs ih =>
    intro acc h
    have hf := h f (List.mem_cons_self f fs)
    simp only [processSetsGo, if_neg hf.1, if_neg hf.2, insertAll_cons]
    exact ih _ (fun g hg => h g (List.mem_cons_of_mem f hg))

theorem processSetsGo_append : ∀ (pre : List (String × String)) (l : List (String × String))
    (acc : SetData), (∀ f ∈ pre, validField f) →
    processSetsGo acc (pre ++ l) = processSetsGo (insertAll acc pre) l := by
  intro pre
  induction pre with
  | nil => intro l acc _; rfl
  | cons f fs ih =>
    intro l acc h
    have hf := h f (List.mem_cons_self f fs)
    simp only [List.cons_append, processSetsGo, if_neg hf.1, if_neg hf.2, insertAll_cons]
    exact ih l _ (fun g hg => h g (List.mem_cons_of_mem f hg))

theorem processSetsGo_success_valid : ∀ (fields : List (String × String)) (acc : SetData),
    (processSetsGo acc fields).1 = none → ∀ f ∈ fields, validField f := by
  intro fields
  induction fields with
  | nil => intro acc _ f hf; cases hf
  | cons g fs ih =>
    intro acc h f hf
    by_cases h1 : pyStrip g.1 = ""
    · simp [processSetsGo, h1] at h
    · by_cases h2 : parse_items g.2 = []
      · simp [processSetsGo, h1, h2] at h
      · rcases List.mem_cons.mp hf with rfl | hf'
        · exact ⟨h1, h2⟩
        · exact ih _ (by simpa [processSetsGo, h1, h2] using h) f hf'

theorem keys_mono_processSetsGo : ∀ (fields : List (String × String)) (acc : SetData)
    (x : String), x ∈ dictKeys acc → x ∈ dictKeys (processSetsGo acc fields).2 := by
  intro fields
  induction fields with
  | nil => intro acc x hx; exact hx
  | cons g fs ih =>
    intro acc x hx
    by_cases h1 : pyStrip g.1 = ""
    · simpa [processSetsGo, h1] using hx
    · by_cases h2 : parse_items g.2 = []
      · simpa [processSetsGo, h1, h2] using hx
      · simp only [processSetsGo, if_neg h1, if_neg h2]
        exact ih _ x ((mem_dictKeys_dictInsert _ _ _ x).mpr (Or.inl hx))

theorem processSetsGo_success_keys : ∀ (fields : List (String × String)) (acc : SetData),
    (processSetsGo acc fields).1 = none →
    ∀ f ∈ fields, pyStrip f.1 ∈ dictKeys (processSetsGo acc fields).2 := by
  intro fields
  induction fields with
  | nil => intro acc _ f hf; cases hf
  | cons g fs ih =>
    intro acc h f hf
    have hv := processSetsGo_success_valid (g :: fs) acc h g (List.mem_cons_self g fs)
    simp only [processSetsGo, if_neg hv.1, if_neg hv.2] at h ⊢
    rcases List.mem_cons.mp hf with rfl | hf'
    · exact keys_mono_processSetsGo fs _ _
        ((mem_dictKeys_dictInsert _ _ _ _).mpr (Or.inr rfl))
    · exact ih _ h f hf'

/-- The items of the last form field whose stripped name is `k` — the
binding Python dict semantics leaves under `k` after processing. -/
def last_items (fields : List (String × String)) (k : String) : Option (List String) :=
  match fields with
  | [] => none
  | f :: fs =>
    match last_items fs k with
    | some v => some v
    | none => if pyStrip f.1 = k then some (parse_items f.2) else none

theorem dictFind_insertAll : ∀ (fields : List (String × String)) (acc : SetData) (k : String),
    dictFind (insertAll acc fields) k =
      match last_items fields k with
      | some v => some v
      | none => dictFind acc k := by
  intro fields
  induction fields with
  | nil => intro acc k; rfl
  | cons f fs ih =>
    intro acc k
    rw [insertAll_cons, ih]
    simp only [last_items]
    cases hl : last_items fs k with
    | some w => rfl
    | none =>
      rw [dictFind_dictInsert]
      by_cases hk : pyStrip f.1 = k
      · simp [hk]
      · rw [if_neg (show ¬ k = pyStrip f.1 from fun h => hk h.symm), if_neg hk]

theorem mem_dictKeys_insertAll : ∀ (fields : List (String × String)) (acc : SetData)
    (x : String), x ∈ dictKeys (insertAll acc fields) ↔
      x ∈ dictKeys acc ∨ x ∈ fields.map (fun f => pyStrip f.1) := by
  intro fields
  induction fields with
  | nil => intro acc x; simp [insertAll_nil]
  | cons f fs ih =>
    intro acc x
    rw [insertAll_cons, ih]
    rw [mem_dictKeys_dictInsert]
    simp only [List.map_cons, List.mem_cons]
    tauto

theorem nodup_dictKeys_insertAll : ∀ (fields : List (String × String)) (acc : SetData),
    (dictKeys acc).Nodup → (dictKeys (insertAll acc fields)).Nodup := by
  intro fields
  induction fields with
  | nil => intro acc h; exact h
  | cons f fs ih =>
    intro acc h
    rw [insertAll_cons]
    exact ih _ (nodup_dictKeys_dictInsert _ _ _ h)

theorem insertAll_ne_nil (acc : SetData) (f : String × String)
    (fs : List (String × String)) : insertAll acc (f :: fs) ≠ [] := by
  intro h
  have hx : pyStrip f.1 ∈ dictKeys (insertAll acc (f :: fs)) :=
    (mem_dictKeys_insertAll _ _ _).mpr (Or.inr (by simp))
  rw [h] at hx
  simp [dictKeys] at hx

theorem length_insertAll_lt (fields : List (String × String))
    (hdup : ¬ (fields.map (fun f => pyStrip f.1)).Nodup) :
    (insertAll [] fields).length < fields.length := by
  have hnd : (dictKeys (insertAll [] fields)).Nodup :=
    nodup_dictKeys_insertAll fields [] (by simp [dictKeys])
  have hmem : ∀ x, x ∈ dictKeys (insertAll [] fields) ↔
      x ∈ fields.map (fun f => pyStrip f.1) := by
    intro x
    rw [mem_dictKeys_insertAll]
    simp [dictKeys]
  have hfin : (dictKeys (insertAll [] fields)).toFinset =
      (fields.map (fun f => pyStrip f.1)).toFinset := by
    apply Finset.ext
    intro x
    simp only [List.mem_toFinset]
    exact hmem x
  have h1 : (insertAll [] fields).length = (dictKeys (insertAll [] fields)).length :=
    (List.length_map _ _).symm
  have h2 : (dictKeys (insertAll [] fields)).length =
      (fields.map (fun f => pyStrip f.1)).dedup.length := by
    rw [← hnd.dedup, ← List.card_toFinset, ← List.card_toFinset, hfin]
  have h3 : (fields.map (fun f => pyStrip f.1)).dedup.length <
      (fields.map (fun f => pyStrip f.1)).length := by
    have hsub := List.dedup_sublist (fields.map (fun f => pyStrip f.1))
    rcases Nat.lt_or_ge (fields.map (fun f => pyStrip f.1)).dedup.length
        (fields.map (fun f => pyStrip f.1)).length with hlt | hge
    · exact hlt
    · exfalso
      have heq := Nat.le_antisymm hsub.length_le hge
      have hself := hsub.eq_of_length heq
      exact hdup (hself ▸ List.nodup_dedup _)
  rw [h1, h2]
  calc (fields.map (fun f => pyStrip f.1)).dedup.length
      < (fields.map (fun f => pyStrip f.1)).length := h3
    _ = fields.length := List.length_map _ _

/-! Lemmas about the derived incidence table. -/

theorem rows_save_to_csv_df (d : SetData) :
    (save_to_csv_df d).rows = List.insertionSort strLeRel ((d.map Prod.snd).flatten.dedup) :=
  rfl

theorem cols_save_to_csv_df (d : SetData) : (save_to_csv_df d).cols = dictKeys d :=
  rfl

theorem data_save_to_csv_df (d : SetData) :
    (save_to_csv_df d).data =
      (save_to_csv_df d).rows.map (fun item => d.map (fun p => if item ∈ p.2 then 1 else 0)) :=
  rfl

theorem sorted_rows_save_to_csv_df (d : SetData) :
    List.Sorted strLeRel (save_to_csv_df d).rows :=
  List.sorted_insertionSort strLeRel _

theorem nodup_rows_save_to_csv_df (d : SetData) : (save_to_csv_df d).rows.Nodup := by
  rw [rows_save_to_csv_df]
  exact ((List.perm_insertionSort strLeRel _).nodup_iff).mpr (List.nodup_dedup _)

theorem mem_rows_save_to_csv_df (d : SetData) (x : String) :
    x ∈ (save_to_csv_df d).rows ↔ ∃ p ∈ d, x ∈ p.2 := by
  rw [rows_save_to_csv_df]
  simp only [List.mem_insertionSort, List.mem_dedup, List.mem_flatten, List.mem_map]
  constructor
  · rintro ⟨l, ⟨p, hp, rfl⟩, hx⟩
    exact ⟨p, hp, hx⟩
  · rintro ⟨p, hp, hx⟩
    exact ⟨p.2, ⟨p, hp, rfl⟩, hx⟩

theorem toFinset_flatten_eq_unionFinset (d : SetData) :
    ((d.map Prod.snd).flatten).toFinset = unionFinset d := by
  induction d with
  | nil => rfl
  | cons p rest ih =>
    have hu : unionFinset (p :: rest) = p.2.toFinset ∪ unionFinset rest := rfl
    rw [List.map_cons, List.flatten_cons, List.toFinset_append, hu, ih]

theorem length_rows_save_to_csv_df (d : SetData) :
    (save_to_csv_df d).rows.length = (unionFinset d).card := by
  rw [rows_save_to_csv_df, (List.perm_insertionSort strLeRel _).length_eq,
    ← toFinset_flatten_eq_unionFinset, List.card_toFinset]

theorem getD_eq_of_lt {α : Type} (l : List α) (n : Nat) (a : α) (h : n < l.length) :
    l.getD n a = l.get ⟨n, h⟩ := by
  rw [List.getD_eq_getElem?_getD, List.getElem?_eq_getElem h, Option.getD_some,
    List.get_eq_getElem]

theorem getD_map_of_lt {α β : Type} (f : α → β) (l : List α) (n : Nat) (b : β) (a : α)
    (h : n < l.length) : (l.map f).getD n b = f (l.getD n a) := by
  have h' : n < (l.map f).length := by simpa using h
  rw [getD_eq_of_lt _ n b h', getD_eq_of_lt _ n a h, List.get_eq_getElem,
    List.get_eq_getElem, List.getElem_map]

theorem cell_save_to_csv_df (d : SetData) (i j : Nat)
    (hi : i < (save_to_csv_df d).rows.length) (hj : j < d.length) :
    (save_to_csv_df d).cell i j =
      if (save_to_csv_df d).row i ∈ (d.getD j ("", [])).2 then 1 else 0 := by
  unfold Table.cell Table.row
  rw [data_save_to_csv_df]
  rw [getD_map_of_lt _ _ i [] "" hi]
  rw [getD_map_of_lt _ _ j 0 ("", []) hj]

theorem colsGetD_save_to_csv_df (d : SetData) (j : Nat) (hj : j < d.length) :
    (save_to_csv_df d).cols.getD j "" = (d.getD j ("", [])).1 := by
  have hc : (save_to_csv_df d).cols = d.map Prod.fst := rfl
  rw [hc, getD_map_of_lt _ _ j "" ("", []) hj]

theorem cells01_save_to_csv_df (d : SetData) :
    ∀ r ∈ (save_to_csv_df d).data, ∀ c ∈ r, c = 0 ∨ c = 1 := by
  intro r hr c hc
  rw [data_save_to_csv_df] at hr
  rcases List.mem_map.mp hr with ⟨item, _, rfl⟩
  rcases List.mem_map.mp hc with ⟨p, _, rfl⟩
  by_cases h : item ∈ p.2
  · right; simp [h]
  · left; simp [h]

/-! Lemmas about the CSV serialization. -/

theorem csvReadCells_tableToCsv (t : Table) (hlen : t.data.length ≤ t.rows.length)
    (h01 : ∀ r ∈ t.data, ∀ c ∈ r, c = 0 ∨ c = 1) :
    csvReadCells (tableToCsv t) = t.data.map (fun r => r.map some) := by
  have step1 : csvReadCells (tableToCsv t) =
      (t.rows.zip t.data).map
        (fun pr => (pr.2.map toString).map (fun c => parseDigits c.data)) := by
    unfold csvReadCells tableToCsv
    simp only [List.drop_succ_cons, List.drop_zero, List.map_map]
    apply List.map_congr_left
    intro pr _
    simp
  have step3 : (t.rows.zip t.data).map Prod.snd = t.data :=
    List.map_snd_zip _ _ hlen
  have hmem : ∀ pr ∈ t.rows.zip t.data,
      (pr.2.map toString).map (fun c => parseDigits c.data) = pr.2.map some := by
    intro pr hpr
    have hd : pr.2 ∈ t.data := (List.of_mem_zip hpr).2
    rw [List.map_map]
    apply List.map_congr_left
    intro c hc
    rcases h01 pr.2 hd c hc with rfl | rfl
    · decide
    · decide
  calc csvReadCells (tableToCsv t)
      = (t.rows.zip t.data).map
          (fun pr => (pr.2.map toString).map (fun c => parseDigits c.data)) := step1
    _ = (t.rows.zip t.data).map (fun pr => pr.2.map some) := List.map_congr_left hmem
    _ = ((t.rows.zip t.data).map Prod.snd).map (fun r => r.map some) :=
        (List.map_map _ _ _).symm
    _ = t.data.map (fun r => r.map some) := by rw [step3]

/-- The two-set example from the specification: A = {x, y}, B = {y, z}. -/
def exampleSets : SetData :=
  [("A", ["x", "y"]), ("B", ["y", "z"])]

/-- C1: for every non-empty mapping from set name to non-empty item sets
(keys distinct, as in a dict), the derived table's columns are the set
names in their original mapping order, its row index is the sorted
duplicate-free union of all items across all sets (so its row count equals
the size of that union), and cell (i, j) is 1 exactly when the item of
row i is a member of the set in column j. -/
theorem save_to_csv_df_spec (d : SetData) (x : String) (i j : Nat) (hne : d ≠ [])
    (hsets : ∀ p ∈ d, p.2 ≠ []) (hkeys : (dictKeys d).Nodup)
    (hi : i < (save_to_csv_df d).rows.length) (hj : j < d.length) :
    (save_to_csv_df d).cols = dictKeys d ∧
    List.Sorted strLeRel (save_to_csv_df d).rows ∧
    (save_to_csv_df d).rows.Nodup ∧
    (x ∈ (save_to_csv_df d).rows ↔ ∃ p ∈ d, x ∈ p.2) ∧
    (save_to_csv_df d).rows.length = (unionFinset d).card ∧
    (save_to_csv_df d).cols.getD j "" = (d.getD j ("", [])).1 ∧
    ((save_to_csv_df d).cell i j = 1 ↔ (save_to_csv_df d).row i ∈ (d.getD j ("", [])).2) :=
  ⟨cols_save_to_csv_df d, sorted_rows_save_to_csv_df d, nodup_rows_save_to_csv_df d,
    mem_rows_save_to_csv_df d x, length_rows_save_to_csv_df d,
    colsGetD_save_to_csv_df d j hj, by
      rw [cell_save_to_csv_df d i j hi hj]
      by_cases h : (save_to_csv_df d).row i ∈ (d.getD j ("", [])).2
      · simp [h]
      · simp [h]⟩

/-- Witness for C1 on the example sets, at item y and cell (1, 0). -/
theorem save_to_csv_df_spec_witness :
    (save_to_csv_df exampleSets).cols = dictKeys exampleSets ∧
    List.Sorted strLeRel (save_to_csv_df exampleSets).rows ∧
    (save_to_csv_df exampleSets).rows.Nodup ∧
    ("y" ∈ (save_to_csv_df exampleSets).rows ↔ ∃ p ∈ exampleSets, "y" ∈ p.2) ∧
    (save_to_csv_df exampleSets).rows.length = (unionFinset exampleSets).card ∧
    (save_to_csv_df exampleSets).cols.getD 0 "" = (exampleSets.getD 0 ("", [])).1 ∧
    ((save_to_csv_df exampleSets).cell 1 0 = 1 ↔
      (save_to_csv_df exampleSets).row 1 ∈ (exampleSets.getD 0 ("", [])).2) :=
  save_to_csv_df_spec exampleSets "y" 1 0 (by decide) (by decide) (by decide)
    (by decide) (by decide)

/-- C2: a submission containing a field whose stripped name is blank or
whose item list is empty fails validation: `process_sets` returns an error
message (the user sees an input error), the save buttons keep their
previous state, and the action aborts rather than silently skipping the
set. -/
theorem process_sets_rejects_invalid (fields : List (String × String)) (st : AppState)
    (h : ∃ f ∈ fields, pyStrip f.1 = "" ∨ parse_items f.2 = []) :
    (process_sets fields).1.isSome = true ∧
    ((process_sets_app st fields).2).isSome = true ∧
    (process_sets_app st fields).1.save_buttons_enabled = st.save_buttons_enabled := by
  have herr : (process_sets fields).1 ≠ none := by
    intro hn
    rcases h with ⟨f, hf, hbad⟩
    have hv := processSetsGo_success_valid fields [] hn f hf
    rcases hbad with hb | hb
    · exact hv.1 hb
    · exact hv.2 hb
  have hsome : (process_sets fields).1.isSome = true :=
    Option.ne_none_iff_isSome.mp herr
  refine ⟨hsome, ?_, ?_⟩ <;>
    · rcases hps : process_sets fields with ⟨err, dd⟩
      cases err with
      | none => exact absurd (by rw [hps] : (process_sets fields).1 = none) herr
      | some e => simp [process_sets_app, hps]

/-- Witness for C2: a single field with a blank name, starting from a
fresh state. -/
theorem process_sets_rejects_invalid_witness :
    (process_sets [("", "x")]).1.isSome = true ∧
    ((process_sets_app ⟨[], false⟩ [("", "x")]).2).isSome = true ∧
    (process_sets_app ⟨[], false⟩ [("", "x")]).1.save_buttons_enabled =
      (⟨[], false⟩ : AppState).save_buttons_enabled :=
  process_sets_rejects_invalid [("", "x")] ⟨[], false⟩ (by decide)

/-- C3: the exported file has one header row (an empty index cell, then
the set names) and one row per distinct item, every data cell is the
string "0" or "1", and re-reading the file recovers the table's cell
values exactly. -/
theorem csv_roundtrip (d : SetData) (line : List String) (c : String) (hne : d ≠ [])
    (hline : line ∈ (tableToCsv (save_to_csv_df d)).drop 1) (hc : c ∈ line.drop 1) :
    (tableToCsv (save_to_csv_df d)).length = (save_to_csv_df d).rows.length + 1 ∧
    (tableToCsv (save_to_csv_df d)).getD 0 [] = "" :: dictKeys d ∧
    (c = "0" ∨ c = "1") ∧
    csvReadCells (tableToCsv (save_to_csv_df d)) =
      (save_to_csv_df d).data.map (fun r => r.map some) := by
  have hlen : (save_to_csv_df d).data.length = (save_to_csv_df d).rows.length := by
    rw [data_save_to_csv_df]
    exact List.length_map _ _
  refine ⟨?_, rfl, ?_, ?_⟩
  · unfold tableToCsv
    simp [List.length_zip, hlen]
  · unfold tableToCsv at hline
    simp only [List.drop_succ_cons, List.drop_zero] at hline
    rcases List.mem_map.mp hline with ⟨pr, hpr, rfl⟩
    simp only [List.drop_succ_cons, List.drop_zero] at hc
    rcases List.mem_map.mp hc with ⟨v, hv, rfl⟩
    have hd : pr.2 ∈ (save_to_csv_df d).data := (List.of_mem_zip hpr).2
    rcases cells01_save_to_csv_df d pr.2 hd v hv with rfl | rfl
    · left; decide
    · right; decide
  · exact csvReadCells_tableToCsv _ (le_of_eq hlen) (cells01_save_to_csv_df d)

/-- Witness for C3 on the example sets, at the first data row and its
first data cell. -/
theorem csv_roundtrip_witness :
    (tableToCsv (save_to_csv_df exampleSets)).length =
      (save_to_csv_df exampleSets).rows.length + 1 ∧
    (tableToCsv (save_to_csv_df exampleSets)).getD 0 [] = "" :: dictKeys exampleSets ∧
    (("1" : String) = "0" ∨ ("1" : String) = "1") ∧
    csvReadCells (tableToCsv (save_to_csv_df exampleSets)) =
      (save_to_csv_df exampleSets).data.map (fun r => r.map some) :=
  csv_roundtrip exampleSets ["x", "1", "0"] "1" (by decide) (by decide) (by decide)

/-- C4: deriving the table does not change the state, so a second export
from the unchanged mapping produces exactly the same table as the first. -/
theorem export_rederivation_idempotent (st : AppState) :
    (save_to_csv st).1 = st ∧
    (save_to_csv ((save_to_csv st).1)).2 = (save_to_csv st).2 := by
  have h1 : (save_to_csv st).1 = st := by
    unfold save_to_csv
    split <;> rfl
  exact ⟨h1, by rw [h1]⟩

/-- C5: a set-count string that does not parse as an integer, or parses to
a non-positive integer, is rejected and no input fields are created; in
particular "0" and "-1" are rejected. -/
theorem get_user_input_rejects (s : String)
    (h : pyInt s = none ∨ ∃ n, pyInt s = some n ∧ n ≤ 0) :
    get_user_input s = none ∧ get_user_input "0" = none ∧ get_user_input "-1" = none := by
  refine ⟨?_, by decide, by decide⟩
  unfold get_user_input
  rcases h with h | ⟨n, hn, hle⟩
  · rw [h]
  · rw [hn]
    simp [hle]

/-- Witness for C5 on a non-numeric string. -/
theorem get_user_input_rejects_witness :
    get_user_input "abc" = none ∧ get_user_input "0" = none ∧
      get_user_input "-1" = none :=
  get_user_input_rejects "abc" (Or.inl (by decide))

/-- C6: exporting the matrix or saving/showing the plot with an empty set
collection reports an error and aborts: the state is unchanged and no
table is produced (no file is written). -/
theorem export_requires_data (st : AppState) (h : st.set_data = []) :
    save_to_csv st = (st, none) ∧ save_upset_plot st = (st, none) ∧
      show_upset_plot st = none := by
  refine ⟨?_, ?_, ?_⟩ <;> simp [save_to_csv, save_upset_plot, show_upset_plot, h]

/-- Witness for C6 on the empty fresh state. -/
theorem export_requires_data_witness :
    save_to_csv ⟨[], false⟩ = (⟨[], false⟩, none) ∧
    save_upset_plot ⟨[], false⟩ = (⟨[], false⟩, none) ∧
    show_upset_plot ⟨[], false⟩ = none :=
  export_requires_data ⟨[], false⟩ rfl

/-- C7: the CSV adapter and the two plot adapters derive identical
incidence tables from the same collection, and the actions hand exactly
that shared table onward. -/
theorem adapters_share_table (d : SetData) (st : AppState) :
    save_to_csv_df d = show_upset_plot_df d ∧
    save_to_csv_df d = save_upset_plot_df d ∧
    (save_to_csv st).2 = show_upset_plot st ∧
    (save_to_csv st).2 = (save_upset_plot st).2 := by
  refine ⟨rfl, rfl, ?_, ?_⟩
  · unfold save_to_csv show_upset_plot
    split <;> rfl
  · unfold save_to_csv save_upset_plot
    split <;> rfl

/-- C8: for sets A = {x, y} and B = {y, z} the derived table has exactly
the rows x, y, z with cells (1,0), (1,1), (0,1). -/
theorem example_two_sets :
    show_upset_plot_df exampleSets =
      ⟨["x", "y", "z"], ["A", "B"], [[1, 0], [1, 1], [0, 1]]⟩ := by
  decide

/-- C9: `process_sets` is not atomic on failure: when the fields before
`bad` validate and `bad` does not, the stored collection is cleared and
left holding exactly the inserts of the fields before `bad`, the error is
reported, the save buttons keep their previous state, and a subsequent
export uses this partial collection. -/
theorem process_sets_not_atomic (st : AppState) (pre : List (String × String))
    (bad : String × String) (rest : List (String × String))
    (hpre : ∀ f ∈ pre, validField f) (hbad : ¬ validField bad) :
    ((process_sets (pre ++ bad :: rest)).1.isSome = true) ∧
    ((process_sets (pre ++ bad :: rest)).2 = insertAll [] pre) ∧
    ((process_sets_app st (pre ++ bad :: rest)).1.set_data = insertAll [] pre) ∧
    ((process_sets_app st (pre ++ bad :: rest)).1.save_buttons_enabled =
      st.save_buttons_enabled) ∧
    (pre ≠ [] → (save_to_csv ((process_sets_app st (pre ++ bad :: rest)).1)).2
        = some (save_to_csv_df (insertAll [] pre))) := by
  have hsplit : process_sets (pre ++ bad :: rest)
      = processSetsGo (insertAll [] pre) (bad :: rest) :=
    processSetsGo_append pre (bad :: rest) [] hpre
  have hstep : ∃ e, processSetsGo (insertAll [] pre) (bad :: rest)
      = (some e, insertAll [] pre) := by
    by_cases h1 : pyStrip bad.1 = ""
    · exact ⟨"Set name cannot be empty.", by simp [processSetsGo, h1]⟩
    · have h2 : parse_items bad.2 = [] := by
        by_contra h2
        exact hbad ⟨h1, h2⟩
      exact ⟨"Set '" ++ pyStrip bad.1 ++ "' cannot be empty.",
        by simp [processSetsGo, h1, h2]⟩
  rcases hstep with ⟨e, he⟩
  have hps : process_sets (pre ++ bad :: rest) = (some e, insertAll [] pre) :=
    hsplit.trans he
  have happ : process_sets_app st (pre ++ bad :: rest)
      = (⟨insertAll [] pre, st.save_buttons_enabled⟩, some e) := by
    simp [process_sets_app, hps]
  refine ⟨by rw [hps]; rfl, by rw [hps], by rw [happ], by rw [happ], ?_⟩
  intro hne
  rcases pre with _ | ⟨f, fs⟩
  · exact absurd rfl hne
  · have hnil : insertAll [] (f :: fs) ≠ [] := insertAll_ne_nil [] f fs
    rw [happ]
    simp [save_to_csv, hnil]

/-- Witness for C9: a valid first field, then a blank-named second field,
starting from a state holding an earlier successful collection with the
save buttons enabled. -/
theorem process_sets_not_atomic_witness :
    ((process_sets ([("A", "x\ny")] ++ ("", "z") :: [("B", "w")])).1.isSome = true) ∧
    ((process_sets ([("A", "x\ny")] ++ ("", "z") :: [("B", "w")])).2 =
      insertAll [] [("A", "x\ny")]) ∧
    ((process_sets_app ⟨[("Old", ["a"])], true⟩
        ([("A", "x\ny")] ++ ("", "z") :: [("B", "w")])).1.set_data =
      insertAll [] [("A", "x\ny")]) ∧
    ((process_sets_app ⟨[("Old", ["a"])], true⟩
        ([("A", "x\ny")] ++ ("", "z") :: [("B", "w")])).1.save_buttons_enabled =
      (⟨[("Old", ["a"])], true⟩ : AppState).save_buttons_enabled) ∧
    ([("A", "x\ny")] ≠ ([] : List (String × String)) →
      (save_to_csv ((process_sets_app ⟨[("Old", ["a"])], true⟩
          ([("A", "x\ny")] ++ ("", "z") :: [("B", "w")])).1)).2
        = some (save_to_csv_df (insertAll [] [("A", "x\ny")]))) :=
  process_sets_not_atomic ⟨[("Old", ["a"])], true⟩ [("A", "x\ny")] ("", "z")
    [("B", "w")] (by decide) (by decide)

/-- C10: duplicate stripped names are accepted without error; the later
field's items replace the earlier field's under that name (the binding is
the last field with that name), and the resulting collection — and hence
the derived table's column list — is strictly shorter than the number of
sets entered. -/
theorem process_sets_duplicate_names (fields : List (String × String)) (k : String)
    (hv : ∀ f ∈ fields, validField f)
    (hdup : ¬ (fields.map (fun f => pyStrip f.1)).Nodup) :
    (process_sets fields).1 = none ∧
    dictFind (process_sets fields).2 k = last_items fields k ∧
    (process_sets fields).2.length < fields.length ∧
    (save_to_csv_df (process_sets fields).2).cols.length < fields.length := by
  have hres : process_sets fields = (none, insertAll [] fields) :=
    processSetsGo_valid fields [] hv
  refine ⟨by rw [hres], ?_, ?_, ?_⟩
  · rw [hres]
    show dictFind (insertAll [] fields) k = last_items fields k
    rw [dictFind_insertAll]
    cases hl : last_items fields k
    · rfl
    · rfl
  · rw [hres]
    exact length_insertAll_lt fields hdup
  · rw [hres]
    show (save_to_csv_df (insertAll [] fields)).cols.length < fields.length
    rw [cols_save_to_csv_df]
    calc (dictKeys (insertAll [] fields)).length
        = (insertAll [] fields).length := List.length_map _ _
      _ < fields.length := length_insertAll_lt fields hdup

/-- Witness for C10: two valid fields whose names both strip to "A",
looked up at the key "A". -/
theorem process_sets_duplicate_names_witness :
    (process_sets [("A", "x"), (" A", "y")]).1 = none ∧
    dictFind (process_sets [("A", "x"), (" A", "y")]).2 "A" =
      last_items [("A", "x"), (" A", "y")] "A" ∧
    (process_sets [("A", "x"), (" A", "y")]).2.length <
      ([("A", "x"), (" A", "y")] : List (String × String)).length ∧
    (save_to_csv_df (process_sets [("A", "x"), (" A", "y")]).2).cols.length <
      ([("A", "x"), (" A", "y")] : List (String × String)).length :=
  process_sets_duplicate_names [("A", "x"), (" A", "y")] "A" (by decide) (by decide)

end UpsetHelper
